import Mathlib

/-!
# Verification of the smart-camera detection dashboard data path

A shallow embedding of the Express/MongoDB camera-tracker application
(`src/index.js`, with the two near-duplicate variants in `src/unnamed/part_000`).
The application stores "detection" records in a `detections` collection,
serves a grouped dashboard, a regex-based item search, a per-video page backed
by a blob store, and JSON APIs for ingestion, distinct items and deletion.

Modeling conventions:
* JavaScript primitive values arriving in a JSON request body are modeled by
  `JSValue`; JavaScript numbers are modeled exactly by `JSNum` (`nan` or a
  rational), the standard idealization of IEEE doubles for small inputs.
* The MongoDB collection is a `StoreState`: a list of records plus a counter
  supplying fresh `_id` values (`ObjectId`s are modeled as naturals).
* Mongo sorts (`.sort({timestamp: -1})`, `.sort({timestampSec: 1})`) are
  modeled with `List.insertionSort` over a total order on `JSNum` placing
  `NaN` (an invalid `Date` / failed numeric coercion) below every number,
  matching MongoDB's ordering of doubles.
* Handler-level exception flow (`try`/`catch`) is modeled with
  `Except JSError` where a claim depends on it.
-/

namespace SmartCam

/-- A JavaScript number: either `NaN` or a (finite) numeric value, modeled as
a rational.  Infinities do not arise on any data path of this program. -/
inductive JSNum where
  | nan : JSNum
  | val (q : ℚ) : JSNum
deriving DecidableEq, Repr

/-- A JavaScript primitive value, as delivered by `express.json()` for a JSON
request-body field or produced by the handlers.  Object- and array-valued
fields are outside the modeled fragment; every claim concerns primitives. -/
inductive JSValue where
  | undefined : JSValue
  | null : JSValue
  | boolean (b : Bool) : JSValue
  | number (n : JSNum) : JSValue
  | string (s : String) : JSValue
deriving DecidableEq, Repr

/-- JavaScript truthiness: `undefined`, `null`, `false`, `0`, `NaN` and `""`
are falsy, everything else is truthy.  This is what `!cameraId` etc. test in
the `POST /api/detection` validation. -/
def JSValue.truthy : JSValue → Bool
  | .undefined => false
  | .null => false
  | .boolean b => b
  | .number .nan => false
  | .number (.val q) => decide (q ≠ 0)
  | .string s => decide (s ≠ "")

/-- Decimal digit value of a character. -/
def digitVal (c : Char) : Nat := c.toNat - 48

/-- Value of a list of decimal digit characters. -/
def digitsToNat (ds : List Char) : Nat := ds.foldl (fun n c => 10 * n + digitVal c) 0

/-- Hexadecimal digit value of a character. -/
def hexDigitVal (c : Char) : Nat :=
  if c.isDigit then c.toNat - 48
  else if 'a' ≤ c ∧ c ≤ 'f' then c.toNat - 87
  else c.toNat - 55

/-- Is `c` a hexadecimal digit? -/
def isHexDigit (c : Char) : Bool :=
  c.isDigit || ('a' ≤ c && c ≤ 'f') || ('A' ≤ c && c ≤ 'F')

/-- Value of a list of hexadecimal digit characters. -/
def hexToNat (ds : List Char) : Nat := ds.foldl (fun n c => 16 * n + hexDigitVal c) 0

/-- Is `c` JavaScript leading whitespace (the common cases)? -/
def isJsWs (c : Char) : Bool := c = ' ' || c = '\t' || c = '\n' || c = '\r'

/-- Apply an optional exponent suffix (`e`/`E` already consumed) to a parsed
mantissa, following `parseFloat`: the exponent is used only when at least one
digit follows, so `parseFloat("1e")` is `1`. -/
def applyExp (m : ℚ) (t : List Char) : ℚ :=
  let p : Bool × List Char :=
    match t with
    | '-' :: u => (true, u)
    | '+' :: u => (false, u)
    | _ => (false, t)
  let ed := p.2.takeWhile Char.isDigit
  if ed = [] then m
  else if p.1 then m / (10 ^ digitsToNat ed) else m * (10 ^ digitsToNat ed)

/-- JavaScript `parseFloat` on a string: skip leading whitespace, read an
optional sign, then the longest prefix of the form `digits[.digits][e[±]digits]`;
`NaN` when no digit is found.  (`"Infinity"` literals do not arise here and are
outside the modeled fragment.) -/
def parseFloatStr (s : String) : JSNum :=
  let cs := s.data.dropWhile isJsWs
  let sp : ℚ × List Char :=
    match cs with
    | '-' :: t => (-1, t)
    | '+' :: t => (1, t)
    | _ => (1, cs)
  let ip := sp.2.takeWhile Char.isDigit
  let rest1 := sp.2.dropWhile Char.isDigit
  let fr : List Char × List Char :=
    match rest1 with
    | '.' :: t => (t.takeWhile Char.isDigit, t.dropWhile Char.isDigit)
    | _ => ([], rest1)
  if ip = [] ∧ fr.1 = [] then .nan
  else
    let mant : ℚ := (digitsToNat ip : ℚ) + (digitsToNat fr.1 : ℚ) / (10 ^ fr.1.length : ℚ)
    let withExp : ℚ :=
      match fr.2 with
      | 'e' :: t => applyExp mant t
      | 'E' :: t => applyExp mant t
      | _ => mant
    .val (sp.1 * withExp)

/-- JavaScript `parseInt` (radix argument omitted) on a string: skip leading
whitespace, read an optional sign, then either a `0x`/`0X` hexadecimal prefix
followed by hex digits or a longest prefix of decimal digits; `NaN` when no
digit is found. -/
def parseIntStr (s : String) : JSNum :=
  let cs := s.data.dropWhile isJsWs
  let sp : Bool × List Char :=
    match cs with
    | '-' :: t => (true, t)
    | '+' :: t => (false, t)
    | _ => (false, cs)
  let core : JSNum :=
    match sp.2 with
    | '0' :: 'x' :: t =>
        let hs := t.takeWhile isHexDigit
        if hs = [] then .nan else .val (hexToNat hs)
    | '0' :: 'X' :: t =>
        let hs := t.takeWhile isHexDigit
        if hs = [] then .nan else .val (hexToNat hs)
    | _ =>
        let ds := sp.2.takeWhile Char.isDigit
        if ds = [] then .nan else .val (digitsToNat ds)
  match core with
  | .nan => .nan
  | .val q => .val (if sp.1 then -q else q)

/-- JavaScript `parseFloat(v)` for a primitive `v`: `v` is first converted to a string.
`"undefined"`, `"null"`, `"true"` and `"false"` have no numeric prefix, so
those cases yield `NaN`; for a finite number `x`, `parseFloat(String(x)) = x`. -/
def jsParseFloat : JSValue → JSNum
  | .string s => parseFloatStr s
  | .number n => n
  | _ => .nan

/-- Truncation toward zero on rationals, the integer part `parseInt` extracts
from a plain decimal rendering of a number. -/
def ratTrunc (q : ℚ) : ℚ := if 0 ≤ q then (⌊q⌋ : ℚ) else (⌈q⌉ : ℚ)

/-- JavaScript `parseInt(v)` for a primitive `v`: `v` is first converted to a string.
For a finite number the conversion renders a plain decimal numeral (exact for
the magnitudes this program handles; exponent-form renderings of extreme
magnitudes are outside the modeled fragment), whose digit prefix is the
truncated integer part. -/
def jsParseInt : JSValue → JSNum
  | .string s => parseIntStr s
  | .number .nan => .nan
  | .number (.val q) => .val (ratTrunc q)
  | _ => .nan

/-- JavaScript `new Date(v)` for a primitive `v`, as the millisecond timestamp (`NaN` for
an Invalid Date).  Numbers, booleans and `null` coerce numerically; parsing of
date *strings* is implementation-defined and outside the modeled fragment
(modeled as Invalid Date) — no claim depends on the value parsed from a
string. -/
def jsToDate : JSValue → JSNum
  | .number n => n
  | .boolean b => .val (if b then 1 else 0)
  | .null => .val 0
  | _ => .nan

/-- Modeled rendering of `String(n)` for a number: exact for `NaN` and
integral values; non-integral values use the rational `num/den` rendering
(their JS decimal rendering is outside the modeled fragment, and no claim
compares such strings). -/
def jsNumToStr : JSNum → String
  | .nan => "NaN"
  | .val q => if q.den = 1 then toString q.num else toString q

/-- JavaScript `String(v)` for a primitive `v`, used when a value becomes an
object property key or is compared by `Array.prototype.sort`'s default
comparator. -/
def jsToStr : JSValue → String
  | .undefined => "undefined"
  | .null => "null"
  | .boolean b => if b then "true" else "false"
  | .number n => jsNumToStr n
  | .string s => s

/-- A stored detection document of the `detections` collection.  Fields
`cameraId`, `videoId` and `item` are stored verbatim from the request body;
`confidence`, `timestamp` and `timestampSec` are the numeric coercions
performed by `POST /api/detection`; `_id` is modeled as a natural number. -/
structure Detection where
  id : Nat
  cameraId : JSValue
  videoId : JSValue
  item : JSValue
  confidence : JSNum
  timestamp : JSNum
  timestampSec : JSNum
  createdAt : Int
deriving DecidableEq, Repr

/-- The `detections` collection: the stored documents together with the next
fresh `_id`. -/
structure StoreState where
  recs : List Detection
  nextId : Nat
deriving DecidableEq, Repr

/-- The total order MongoDB uses on the numeric sort keys of this program:
`NaN` sorts below every number. -/
def JSNum.leB : JSNum → JSNum → Bool
  | .nan, _ => true
  | .val _, .nan => false
  | .val a, .val b => decide (a ≤ b)

/-- Mongo `sort({timestamp: -1})`: most recent first. -/
def tsDesc (a b : Detection) : Prop := JSNum.leB b.timestamp a.timestamp = true

/-- Mongo `sort({timestampSec: 1})`: in-clip offset ascending. -/
def tssAsc (a b : Detection) : Prop := JSNum.leB a.timestampSec b.timestampSec = true

instance : DecidableRel tsDesc := fun a b => by unfold tsDesc; exact Bool.decEq _ _

instance : DecidableRel tssAsc := fun a b => by unfold tssAsc; exact Bool.decEq _ _

instance : IsTotal Detection tsDesc := ⟨fun a b => by
  unfold tsDesc
  cases b.timestamp <;> cases a.timestamp <;> simp [JSNum.leB]
  exact le_total _ _⟩

instance : IsTrans Detection tsDesc := ⟨fun x y z h1 h2 => by
  unfold tsDesc at h1 h2 ⊢
  generalize x.timestamp = tx at h1 ⊢
  generalize y.timestamp = ty at h1 h2
  generalize z.timestamp = tz at h2 ⊢
  cases tx <;> cases ty <;> cases tz <;> simp_all [JSNum.leB]
  exact le_trans h2 h1⟩

instance : IsTotal Detection tssAsc := ⟨fun a b => by
  unfold tssAsc
  cases a.timestampSec <;> cases b.timestampSec <;> simp [JSNum.leB]
  exact le_total _ _⟩

instance : IsTrans Detection tssAsc := ⟨fun x y z h1 h2 => by
  unfold tssAsc at h1 h2 ⊢
  generalize x.timestampSec = tx at h1 ⊢
  generalize y.timestampSec = ty at h1 h2
  generalize z.timestampSec = tz at h2 ⊢
  cases tx <;> cases ty <;> cases tz <;> simp_all [JSNum.leB]
  exact le_trans h1 h2⟩

/-- The query `db.collection('detections').find().sort({timestamp: -1}).toArray()`. -/
def listAll (st : StoreState) : List Detection :=
  List.insertionSort tsDesc st.recs

/-- The query `db.collection('detections').find({videoId}).sort({timestampSec: 1}).toArray()`
for a `videoId` taken from the URL (a string; Mongo equality on a string query
matches only string-typed fields). -/
def listByVideo (st : StoreState) (v : String) : List Detection :=
  List.insertionSort tssAsc (st.recs.filter fun d => decide (d.videoId = JSValue.string v))

/-!
## The regular-expression engine behind `GET /search` and `GET /api/last-seen`

Both routes run `new RegExp(item, 'i')` on raw user input and hand the result
to a Mongo `find({item: regex})` query (an unanchored, case-insensitive test
against string-typed `item` fields).  We embed the fragment of the JavaScript
regular-expression language these inputs can exercise — literal characters,
`.`, postfix `*`, grouping `(` `)` and alternation `|` — with the same syntax
errors `new RegExp` raises on malformed patterns.  The remaining
metacharacters (`+ ? [ ] { } ^ $ \`) are outside the modeled fragment and are
reported as a distinct parse error; no claim touches them.  Matching is by
Brzozowski derivatives, which decide the same language. -/

/-- Abstract syntax of the modeled regular-expression fragment. -/
inductive Regex where
  | emptySet : Regex
  | eps : Regex
  | chr (c : Char) : Regex
  | any : Regex
  | cat (r s : Regex) : Regex
  | alt (r s : Regex) : Regex
  | star (r : Regex) : Regex
deriving DecidableEq, Repr

/-- Does `r` accept the empty string? -/
def Regex.nullable : Regex → Bool
  | .emptySet => false
  | .eps => true
  | .chr _ => false
  | .any => false
  | .cat r s => r.nullable && s.nullable
  | .alt r s => r.nullable || s.nullable
  | .star _ => true

/-- Brzozowski derivative of `r` by the character `a`. -/
def Regex.deriv : Regex → Char → Regex
  | .emptySet, _ => .emptySet
  | .eps, _ => .emptySet
  | .chr c, a => if c = a then .eps else .emptySet
  | .any, _ => .eps
  | .cat r s, a =>
      if r.nullable then .alt (.cat (r.deriv a) s) (s.deriv a) else .cat (r.deriv a) s
  | .alt r s, a => .alt (r.deriv a) (s.deriv a)
  | .star r, a => .cat (r.deriv a) (.star r)

/-- Does `r` accept exactly the character list `cs`? -/
def Regex.rmatch (r : Regex) (cs : List Char) : Bool :=
  (cs.foldl Regex.deriv r).nullable

/-- Lower-case every literal character of `r` (the modeled effect of the `i`
flag, exact for ASCII). -/
def Regex.lowerR : Regex → Regex
  | .emptySet => .emptySet
  | .eps => .eps
  | .chr c => .chr c.toLower
  | .any => .any
  | .cat r s => .cat r.lowerR s.lowerR
  | .alt r s => .alt r.lowerR s.lowerR
  | .star r => .star r.lowerR

/-- JavaScript `regex.test(s)` with the `i` flag: unanchored, case-insensitive. -/
def regexTestCI (r : Regex) (s : String) : Bool :=
  Regex.rmatch (.cat (.star .any) (.cat r.lowerR (.star .any))) (s.data.map Char.toLower)

/-- Close the pending concatenation of a parser frame. -/
def finishSeq (seqAcc : Regex) (last : Option Regex) : Regex :=
  match last with
  | none => seqAcc
  | some a => .cat seqAcc a

/-- Fold a finished branch into the pending alternation of a parser frame. -/
def finishAlt (altAcc : Option Regex) (r : Regex) : Regex :=
  match altAcc with
  | none => r
  | some a => .alt a r

/-- A suspended parser frame pushed on `(`: the pending alternation, the
pending concatenation and the last parsed atom of the enclosing group. -/
def PFrame := Option Regex × Regex × Option Regex

/-- The metacharacters of JavaScript regular expressions that lie outside the
modeled fragment. -/
def unmodeledMeta : List Char := ['+', '?', '[', ']', '\x7b', '\x7d', '^', '$', '\\']

/-- One-pass parser for the modeled fragment, mirroring the syntax errors of
`new RegExp`: a quantifier with nothing before it, an unmatched `)` and an
unclosed `(` are rejected with the engine's messages.  Fuel is one unit per
input character. -/
def parseLoop : Nat → List Char → List PFrame → Option Regex → Regex → Option Regex →
    Except String Regex
  | 0, _, _, _, _, _ => .error "Internal: out of fuel"
  | _ + 1, [], stack, altAcc, seqAcc, last =>
      match stack with
      | [] => .ok (finishAlt altAcc (finishSeq seqAcc last))
      | _ => .error "Unterminated group"
  | fuel + 1, c :: cs, stack, altAcc, seqAcc, last =>
      if c = '(' then
        parseLoop fuel cs ((altAcc, seqAcc, last) :: stack) none .eps none
      else if c = ')' then
        match stack with
        | [] => .error "Unmatched close parenthesis"
        | (a2, s2, l2) :: st =>
            parseLoop fuel cs st a2 (finishSeq s2 l2)
              (some (finishAlt altAcc (finishSeq seqAcc last)))
      else if c = '|' then
        parseLoop fuel cs stack (some (finishAlt altAcc (finishSeq seqAcc last))) .eps none
      else if c = '*' then
        match last with
        | none => .error "Nothing to repeat"
        | some a => parseLoop fuel cs stack altAcc (.cat seqAcc (.star a)) none
      else if c = '.' then
        parseLoop fuel cs stack altAcc (finishSeq seqAcc last) (some .any)
      else if c ∈ unmodeledMeta then
        .error "Metacharacter outside the modeled fragment"
      else
        parseLoop fuel cs stack altAcc (finishSeq seqAcc last) (some (.chr c))

/-- JavaScript `new RegExp(pattern)`: parse or raise a `SyntaxError`. -/
def parseRegex (s : String) : Except String Regex :=
  parseLoop (s.length + 1) s.data [] none .eps none

/-- The detections whose `item` field the compiled pattern matches
(`find({item: regex})` matches only string-typed fields), most recent first. -/
def searchResults (st : StoreState) (r : Regex) : List Detection :=
  List.insertionSort tsDesc (st.recs.filter fun d =>
    match d.item with
    | .string s => regexTestCI r s
    | _ => false)

/-- The store query of `GET /search`: compile the raw query string with
`new RegExp(item, 'i')` — a `SyntaxError` propagates as `.error` — and run the
regex find, most recent first. -/
def search (st : StoreState) (pat : String) : Except String (List Detection) :=
  (parseRegex pat).map (searchResults st)

/-- The search the specification asks for, stated from its words: the records
whose `item` contains the query as a *literal substring*, case-insensitively,
most recent first.  Declared only to be compared with `search`, which is the
embedding of the source. -/
def searchLiteral (st : StoreState) (pat : String) : List Detection :=
  List.insertionSort tsDesc (st.recs.filter fun d =>
    match d.item with
    | .string s => decide (List.IsInfix (pat.data.map Char.toLower) (s.data.map Char.toLower))
    | _ => false)

/-!
## Ingestion: `POST /api/detection` -/

/-- The six request-body fields destructured by `POST /api/detection`. -/
structure DetectionPayload where
  cameraId : JSValue
  videoId : JSValue
  item : JSValue
  confidence : JSValue
  timestamp : JSValue
  timestampSec : JSValue
deriving DecidableEq, Repr

/-- JSON responses of the API routes. -/
inductive ApiResponse where
  | badRequest (error : String) : ApiResponse
  | jsonSuccess (message : String) : ApiResponse
  | serverError (error : String) : ApiResponse
deriving DecidableEq, Repr

/-- The document `insertOne` receives for a payload that passed validation:
`cameraId`, `videoId` and `item` verbatim, `confidence` through `parseFloat`,
`timestamp` through `new Date`, `timestampSec` through `parseInt`, `createdAt`
stamped with the server clock, `_id` assigned by the store. -/
def ingestedRecord (st : StoreState) (p : DetectionPayload) (now : Int) : Detection :=
  { id := st.nextId
    cameraId := p.cameraId
    videoId := p.videoId
    item := p.item
    confidence := jsParseFloat p.confidence
    timestamp := jsToDate p.timestamp
    timestampSec := jsParseInt p.timestampSec
    createdAt := now }

/-- Route `POST /api/detection`: reject with `400` when
`!cameraId || !videoId || !item || !confidence || !timestamp || timestampSec === undefined`,
otherwise insert the coerced document and answer
`{success: true, message: 'Detection logged'}`. -/
def postDetection (st : StoreState) (p : DetectionPayload) (now : Int) :
    StoreState × ApiResponse :=
  if !p.cameraId.truthy || !p.videoId.truthy || !p.item.truthy || !p.confidence.truthy
      || !p.timestamp.truthy || decide (p.timestampSec = JSValue.undefined) then
    (st, .badRequest "Missing required fields")
  else
    ({ recs := st.recs ++ [ingestedRecord st p now], nextId := st.nextId + 1 },
     .jsonSuccess "Detection logged")

/-!
## The dashboard grouping of `GET /`

The handler scans `listAll` into a plain JavaScript object keyed by
`videoMap[det.videoId]` (the key is `String(videoId)`), creating
`{videoId, cameraId, detections: []}` on first sight of a key and pushing each
detection, and then renders `Object.values(videoMap)`.  Per the ECMAScript
own-property order, `Object.values` lists keys that are canonical array
indices first, in ascending numeric order, and all remaining keys in insertion
order. -/

/-- The read-time video grouping entity built by the dashboard handler. -/
structure VideoEntity where
  videoId : JSValue
  cameraId : JSValue
  detections : List Detection
deriving DecidableEq, Repr

/-- The key `String(det.videoId)` the handler groups by. the handler groups by. -/
def keyOf (d : Detection) : String := jsToStr d.videoId

/-- The assignment `videoMap[det.videoId] = { videoId, cameraId, detections: [] }`
followed by the first `push`. -/
def mkEntity (d : Detection) : VideoEntity :=
  { videoId := d.videoId, cameraId := d.cameraId, detections := [d] }

/-- The push `videoMap[det.videoId].detections.push(det)`. -/
def pushDet (e : VideoEntity) (d : Detection) : VideoEntity :=
  { e with detections := e.detections ++ [d] }

/-- Property lookup on the insertion-ordered association list modeling
`videoMap`. -/
def lookupKey (m : List (String × VideoEntity)) (k : String) : Option VideoEntity :=
  match m with
  | [] => none
  | kv :: rest => if kv.1 = k then some kv.2 else lookupKey rest k

/-- One iteration of the `detections.forEach` grouping loop. -/
def insertDet (m : List (String × VideoEntity)) (d : Detection) : List (String × VideoEntity) :=
  match lookupKey m (keyOf d) with
  | some _ => m.map fun kv => if kv.1 = keyOf d then (kv.1, pushDet kv.2 d) else kv
  | none => m ++ [(keyOf d, mkEntity d)]

/-- The whole grouping loop: `videoMap` as an association list in property
insertion order. -/
def groupByVideo (dets : List Detection) : List (String × VideoEntity) :=
  dets.foldl insertDet []

/-- Numeric value of a digit string. -/
def strToNat (s : String) : Nat := digitsToNat s.data

/-- Is `s` a canonical array-index property key: a base-10 numeral with no
leading zero (other than `"0"` itself) whose value is below `2^32 - 1`? -/
def isArrayIndexKey (s : String) : Bool :=
  decide (s.data ≠ []) && s.data.all Char.isDigit
    && (decide (s = "0") || decide (s.data.head? ≠ some '0'))
    && decide (strToNat s < 4294967295)

/-- Ascending numeric order on array-index keys. -/
def idxLe (a b : String × VideoEntity) : Prop := strToNat a.1 ≤ strToNat b.1

instance : DecidableRel idxLe := fun a b => by unfold idxLe; exact Nat.decLe _ _

instance : IsTotal (String × VideoEntity) idxLe := ⟨fun _ _ => Nat.le_total _ _⟩

instance : IsTrans (String × VideoEntity) idxLe := ⟨fun _ _ _ => Nat.le_trans⟩

/-- JavaScript `Object.values(videoMap)`: array-index keys first in ascending numeric
order, then the remaining keys in insertion order. -/
def objectValues (m : List (String × VideoEntity)) : List VideoEntity :=
  (List.insertionSort idxLe (m.filter fun kv => isArrayIndexKey kv.1)
    ++ m.filter fun kv => !isArrayIndexKey kv.1).map Prod.snd

/-- The `videos` array `GET /` renders. -/
def dashboardVideos (st : StoreState) : List VideoEntity :=
  objectValues (groupByVideo (listAll st))

/-- First-occurrence deduplication, accumulating the keys already seen. -/
def firstDedupAux (seen : List String) : List String → List String
  | [] => []
  | x :: xs => if x ∈ seen then firstDedupAux seen xs else x :: firstDedupAux (x :: seen) xs

/-- The keys of a list in order of first appearance, each once. -/
def firstDedup (l : List String) : List String := firstDedupAux [] l

/-- The video entity the specification describes for key `k`: its detections
are all matching detections in the order of the scanned list, and `videoId`
and `cameraId` come from the first of them.  (The empty case is unreachable
for keys drawn from the list.) -/
def entityFor (k : String) (dets : List Detection) : VideoEntity :=
  match dets.filter fun d => decide (keyOf d = k) with
  | [] => ⟨.undefined, .undefined, []⟩
  | d :: ds => ⟨d.videoId, d.cameraId, d :: ds⟩

/-- The keyed form of `groupSpec`, used to relate it to `groupByVideo`. -/
def groupPairsSpec (dets : List Detection) : List (String × VideoEntity) :=
  (firstDedup (dets.map keyOf)).map fun k => (k, entityFor k dets)

/-- The grouping the specification describes, stated from its words: one
video entity per distinct videoId in order of first appearance in the scanned
(recency-sorted) list, with `cameraId` taken from the first associated
detection and the detections in the scanned order.  Declared only to be
compared with `dashboardVideos`, which is the embedding of the source. -/
def groupSpec (dets : List Detection) : List VideoEntity :=
  (firstDedup (dets.map keyOf)).map fun k => entityFor k dets

/-!
## Media locator and `GET /video/:videoId` -/

/-- The blob store: which object paths exist, and which have been made
public. -/
structure BucketState where
  objects : List String
  publicObjects : List String
deriving DecidableEq, Repr

/-- The configured bucket. -/
def bucketName : String := "memoryretrieve.appspot.com"

/-- Blob-store `file.makePublic()`: idempotently mark the object public. -/
def makePublic (b : BucketState) (f : String) : BucketState :=
  { b with publicObjects := if f ∈ b.publicObjects then b.publicObjects else f :: b.publicObjects }

/-- The media resolution of `GET /video/:videoId`: the deterministic path
`videos/{videoId}.mp4` is checked with `file.exists()`; if present it is made
public and its public URL returned, otherwise `videoUrl` stays `''`. -/
def resolveMedia (b : BucketState) (videoId : String) : BucketState × String :=
  let fileName := "videos/" ++ videoId ++ ".mp4"
  if fileName ∈ b.objects then
    (makePublic b fileName, "https://storage.googleapis.com/" ++ bucketName ++ "/" ++ fileName)
  else (b, "")

/-- Page responses of the rendered routes. -/
inductive Response where
  | redirect (loc : String) : Response
  | renderSearch (detections : List Detection) (searchTerm : String) (error : Option String) :
      Response
  | renderVideo (videoId : String) (videoUrl : String) (detections : List Detection)
      (cameraId : JSValue) : Response
deriving DecidableEq, Repr

/-- Route `GET /video/:videoId`: fetch `listByVideo`; redirect to
`/?error=Video not found` when it is empty, otherwise resolve the media and
render the page with `cameraId` taken from `detections[0]`. -/
def videoRoute (st : StoreState) (b : BucketState) (videoId : String) :
    BucketState × Response :=
  match listByVideo st videoId with
  | [] => (b, .redirect "/?error=Video not found")
  | d :: ds =>
      let res := resolveMedia b videoId
      (res.1, .renderVideo videoId res.2 (d :: ds) d.cameraId)

/-!
## `POST /delete/:id` and `GET /api/items` -/

/-- JSON responses of the delete route. -/
inductive DeleteResponse where
  | ok : DeleteResponse
  | failed (error : String) : DeleteResponse
deriving DecidableEq, Repr

/-- Mongo `deleteOne({_id})`: remove the first document with the given id (ids are
unique in any store reachable through `insertOne`, so at most one exists). -/
def eraseFirstById : List Detection → Nat → List Detection
  | [], _ => []
  | d :: ds, oid => if d.id = oid then ds else d :: eraseFirstById ds oid

/-- The store mutation of `POST /delete/:id`. -/
def deleteById (st : StoreState) (oid : Nat) : StoreState :=
  { st with recs := eraseFirstById st.recs oid }

/-- Route `POST /delete/:id` for a well-formed id (a malformed id makes
`new ObjectId` throw, which the route catches and reports as
`{success: false}`; the claims quantify over well-formed ids): delete and
answer `{success: true}` whether or not anything matched. -/
def deleteRoute (st : StoreState) (oid : Nat) : StoreState × DeleteResponse :=
  (deleteById st oid, .ok)

/-- Mongo `db.collection('detections').distinct('item')`: the distinct `item`
values; Mongo does not specify their order, modeled as order of a duplicate
scan. -/
def distinctValues (st : StoreState) : List JSValue :=
  (st.recs.map (·.item)).dedup

/-- The default comparator of `Array.prototype.sort`: string conversion, then
lexicographic comparison. -/
def jsSortLe (a b : JSValue) : Prop := jsToStr a ≤ jsToStr b

instance : DecidableRel jsSortLe := fun a b =>
  inferInstanceAs (Decidable (jsToStr a ≤ jsToStr b))

instance : IsTotal JSValue jsSortLe := ⟨fun a b => le_total (jsToStr a) (jsToStr b)⟩

instance : IsTrans JSValue jsSortLe := ⟨fun _ _ _ h1 h2 => le_trans h1 h2⟩

/-- Route `GET /api/items`: `distinct('item')` followed by `items.sort()`. -/
def distinctItems (st : StoreState) : List JSValue :=
  List.insertionSort jsSortLe (distinctValues st)

/-!
## Handler-boundary exception flow (`GET /search` of `src/index.js`)

Each route body runs inside `try { ... } catch { ... }`.  `Except JSError`
models a JavaScript exception unwinding out of an expression; `tryCatchJS`
is the `try`/`catch` statement itself.  A handler converts a failure into a
response only if its `catch` block runs to completion. -/

/-- The JavaScript exceptions arising on the search path. -/
inductive JSError where
  | referenceError (name : String) : JSError
  | syntaxError (msg : String) : JSError
  | dbError (msg : String) : JSError
deriving DecidableEq, Repr

/-- JavaScript `try { body } catch (e) { handler }`. -/
def tryCatchJS {α : Type} (body : Except JSError α) (handler : JSError → Except JSError α) :
    Except JSError α :=
  match body with
  | .ok a => .ok a
  | .error e => handler e

/-- Route `GET /search` of `src/index.js`.  `item` is the raw query-string value
(`none` when absent); `dbErr` is `some msg` when the store query rejects with
`msg`.  The body redirects on a falsy `item`, compiles
`new RegExp(item, 'i')` (a malformed pattern throws a `SyntaxError`), runs the
query and renders the results.  The `catch` block of this variant reads
`item`, a `const` declared *inside* the `try` block and therefore out of scope
in the `catch` block: evaluating it throws a `ReferenceError`, so the catch
handler itself fails instead of rendering the error page. -/
def searchRoute (st : StoreState) (item : Option String) (dbErr : Option String) :
    Except JSError Response :=
  tryCatchJS
    (match item with
     | none => .ok (.redirect "/")
     | some it =>
         if it = "" then .ok (.redirect "/")
         else
           match parseRegex it with
           | .error e => .error (.syntaxError e)
           | .ok r =>
               match dbErr with
               | some msg => .error (.dbError msg)
               | none => .ok (.renderSearch (searchResults st r) it none))
    (fun _ => .error (.referenceError "item"))

/-!
## Concrete fixtures

Small concrete stores, payloads and buckets used by the witness and
counterexample theorems below. -/

/-- A fresh, empty store. -/
def stEmpty : StoreState := ⟨[], 0⟩

/-- A payload passing validation, with a string-typed confidence and
`timestampSec` equal to `0`. -/
def pValid : DetectionPayload :=
  ⟨.string "cam1", .string "v1", .string "cup", .string "0.87",
   .number (.val 1000), .number (.val 0)⟩

/-- A payload with a falsy `cameraId` (the empty string). -/
def pMissing : DetectionPayload :=
  ⟨.string "", .string "v1", .string "cup", .number (.val 1),
   .number (.val 1000), .number (.val 0)⟩

/-- A payload whose `timestampSec` is `null`: defined (so it passes the
`=== undefined` check), but `parseInt(null)` is `NaN`. -/
def pNullTs : DetectionPayload :=
  ⟨.string "cam1", .string "v1", .string "cup", .number (.val 1),
   .number (.val 1000), .null⟩

/-- A payload whose `confidence` is the truthy non-numeric string `"abc"`:
`parseFloat("abc")` is `NaN`. -/
def pStrConf : DetectionPayload :=
  ⟨.string "cam1", .string "v1", .string "cup", .string "abc",
   .number (.val 1000), .number (.val 3)⟩

/-- A detection whose item is the literal string `"axb"`. -/
def detAxb : Detection :=
  { id := 0, cameraId := .string "cam1", videoId := .string "v1", item := .string "axb",
    confidence := .val 1, timestamp := .val 10, timestampSec := .val 0, createdAt := 0 }

/-- A one-record store holding `detAxb`. -/
def stAxb : StoreState := ⟨[detAxb], 1⟩

/-- A detection belonging to video `"v1"`. -/
def detV1 : Detection :=
  { id := 0, cameraId := .string "cam7", videoId := .string "v1", item := .string "cup",
    confidence := .val 1, timestamp := .val 10, timestampSec := .val 4, createdAt := 0 }

/-- A second detection of video `"v1"`, earlier in the clip. -/
def detV1b : Detection :=
  { id := 1, cameraId := .string "cam7", videoId := .string "v1", item := .string "mug",
    confidence := .val 1, timestamp := .val 20, timestampSec := .val 2, createdAt := 0 }

/-- A two-record store for video `"v1"`. -/
def stV1 : StoreState := ⟨[detV1, detV1b], 2⟩

/-- A bucket holding exactly the object `videos/v1.mp4`, not yet public. -/
def bV1 : BucketState := ⟨["videos/v1.mp4"], []⟩

/-- A detection with the numeric-string video id `"10"`, most recent. -/
def detVid10 : Detection :=
  { id := 0, cameraId := .string "camA", videoId := .string "10", item := .string "cup",
    confidence := .val 1, timestamp := .val 5, timestampSec := .val 0, createdAt := 0 }

/-- A detection with the numeric-string video id `"2"`, older. -/
def detVid2 : Detection :=
  { id := 1, cameraId := .string "camB", videoId := .string "2", item := .string "mug",
    confidence := .val 1, timestamp := .val 3, timestampSec := .val 0, createdAt := 0 }

/-- A store whose video ids are canonical array-index strings. -/
def stNumVids : StoreState := ⟨[detVid10, detVid2], 2⟩

/-- A detection with item `"mug"`. -/
def detMug : Detection :=
  { id := 5, cameraId := .string "cam7", videoId := .string "v3", item := .string "mug",
    confidence := .val 1, timestamp := .val 30, timestampSec := .val 1, createdAt := 0 }

/-- A duplicate-item detection with item `"cup"`. -/
def detCupDup : Detection :=
  { id := 6, cameraId := .string "cam8", videoId := .string "v4", item := .string "cup",
    confidence := .val 1, timestamp := .val 40, timestampSec := .val 1, createdAt := 0 }

/-- A store holding the items `["mug", "cup", "cup"]` — the labels of `stV1`
permuted and with a duplicate. -/
def stItems2 : StoreState := ⟨[detMug, detV1, detCupDup], 7⟩

/-!
## Theorems -/

theorem eraseFirstById_of_none (l : List Detection) (oid : Nat)
    (h : ∀ r ∈ l, r.id ≠ oid) : eraseFirstById l oid = l := by
  induction l with
  | nil => rfl
  | cons d ds ih =>
      have hd : d.id ≠ oid := h d (List.mem_cons_self d ds)
      simp only [eraseFirstById, if_neg hd]
      rw [ih fun r hr => h r (List.mem_cons_of_mem _ hr)]

theorem eraseFirstById_split (pre : List Detection) (d : Detection) (post : List Detection)
    (oid : Nat) (hd : d.id = oid) (hpre : ∀ x ∈ pre, x.id ≠ oid) :
    eraseFirstById (pre ++ d :: post) oid = pre ++ post := by
  induction pre with
  | nil => simp [eraseFirstById, hd]
  | cons x xs ih =>
      have hx : x.id ≠ oid := hpre x (List.mem_cons_self x xs)
      simp only [List.cons_append, eraseFirstById, if_neg hx, List.append_eq]
      rw [ih fun y hy => hpre y (List.mem_cons_of_mem _ hy)]

/-- C2: a payload with any of `cameraId`, `videoId`, `item`, `confidence`,
`timestamp` falsy, or with `timestampSec === undefined`, is answered with the
400 response and the store is unchanged; a payload with `timestampSec` equal
to the number `0` and every other field truthy passes this check and is
answered with the success response. -/
theorem c2_ingest_validation (st : StoreState) (p : DetectionPayload) (now : Int) :
    ((p.cameraId.truthy = false ∨ p.videoId.truthy = false ∨ p.item.truthy = false
        ∨ p.confidence.truthy = false ∨ p.timestamp.truthy = false
        ∨ p.timestampSec = JSValue.undefined) →
      postDetection st p now = (st, .badRequest "Missing required fields"))
    ∧ (p.cameraId.truthy = true → p.videoId.truthy = true → p.item.truthy = true →
        p.confidence.truthy = true → p.timestamp.truthy = true →
        p.timestampSec = JSValue.number (.val 0) →
        (postDetection st p now).2 = .jsonSuccess "Detection logged") := by
  constructor
  · intro h
    have hcond : (!p.cameraId.truthy || !p.videoId.truthy || !p.item.truthy
        || !p.confidence.truthy || !p.timestamp.truthy
        || decide (p.timestampSec = JSValue.undefined)) = true := by
      rcases h with h | h | h | h | h | h <;> simp [h]
    simp [postDetection, hcond]
  · intro h1 h2 h3 h4 h5 h6
    have hcond : (!p.cameraId.truthy || !p.videoId.truthy || !p.item.truthy
        || !p.confidence.truthy || !p.timestamp.truthy
        || decide (p.timestampSec = JSValue.undefined)) = false := by
      simp [h1, h2, h3, h4, h5, h6]
    simp [postDetection, hcond]

/-- C2 witness: a payload with an empty `cameraId` is rejected with the store
untouched, and one with `timestampSec = 0` and truthy fields is logged. -/
theorem c2_ingest_validation_witness :
    postDetection stEmpty pMissing 0 = (stEmpty, .badRequest "Missing required fields")
    ∧ (postDetection stEmpty pValid 0).2 = .jsonSuccess "Detection logged" :=
  ⟨(c2_ingest_validation stEmpty pMissing 0).1 (Or.inl (by decide)),
   (c2_ingest_validation stEmpty pValid 0).2 (by decide) (by decide) (by decide)
     (by decide) (by decide) (by decide)⟩

/-- C4: a payload passing validation is answered with success and appends
exactly the coerced document: `confidence` is `parseFloat` of the payload
field, `timestampSec` is `parseInt` of the payload field, `createdAt` is the
server clock at insertion (hence at least the request time), and — the store
ids being fresh — `listAll` afterwards contains the new record exactly once. -/
theorem c4_ingest_persists (st : StoreState) (p : DetectionPayload) (now : Int)
    (h1 : p.cameraId.truthy = true) (h2 : p.videoId.truthy = true)
    (h3 : p.item.truthy = true) (h4 : p.confidence.truthy = true)
    (h5 : p.timestamp.truthy = true) (h6 : p.timestampSec ≠ JSValue.undefined)
    (hid : ∀ r ∈ st.recs, r.id < st.nextId) :
    postDetection st p now
      = ({ recs := st.recs ++ [ingestedRecord st p now], nextId := st.nextId + 1 },
         .jsonSuccess "Detection logged")
    ∧ (ingestedRecord st p now).confidence = jsParseFloat p.confidence
    ∧ (ingestedRecord st p now).timestampSec = jsParseInt p.timestampSec
    ∧ now ≤ (ingestedRecord st p now).createdAt
    ∧ (listAll (postDetection st p now).1).count (ingestedRecord st p now) = 1 := by
  have hcond : (!p.cameraId.truthy || !p.videoId.truthy || !p.item.truthy
      || !p.confidence.truthy || !p.timestamp.truthy
      || decide (p.timestampSec = JSValue.undefined)) = false := by
    simp [h1, h2, h3, h4, h5, h6]
  have heq : postDetection st p now
      = ({ recs := st.recs ++ [ingestedRecord st p now], nextId := st.nextId + 1 },
         .jsonSuccess "Detection logged") := by
    simp [postDetection, hcond]
  refine ⟨heq, rfl, rfl, le_refl now, ?_⟩
  rw [heq]
  have hperm : List.Perm (listAll ⟨st.recs ++ [ingestedRecord st p now], st.nextId + 1⟩)
      (st.recs ++ [ingestedRecord st p now]) := List.perm_insertionSort _ _
  rw [hperm.count_eq, List.count_append]
  have h0 : st.recs.count (ingestedRecord st p now) = 0 :=
    List.count_eq_zero.mpr fun hmem => absurd (hid _ hmem) (by simp [ingestedRecord])
  simp [h0]

/-- C4 witness: ingesting `pValid` into the empty store at time 5. -/
theorem c4_ingest_persists_witness :
    postDetection stEmpty pValid 5
      = ({ recs := stEmpty.recs ++ [ingestedRecord stEmpty pValid 5],
           nextId := stEmpty.nextId + 1 }, .jsonSuccess "Detection logged")
    ∧ (ingestedRecord stEmpty pValid 5).confidence = jsParseFloat pValid.confidence
    ∧ (ingestedRecord stEmpty pValid 5).timestampSec = jsParseInt pValid.timestampSec
    ∧ (5 : Int) ≤ (ingestedRecord stEmpty pValid 5).createdAt
    ∧ (listAll (postDetection stEmpty pValid 5).1).count (ingestedRecord stEmpty pValid 5)
        = 1 :=
  c4_ingest_persists stEmpty pValid 5 (by decide) (by decide) (by decide) (by decide)
    (by decide) (by decide) (by intro r hr; simp [stEmpty] at hr)

/-- C10: the validation check does not guarantee numeric persisted fields: a
payload with `timestampSec = null` passes and persists `timestampSec = NaN`,
and one with `confidence = "abc"` passes and persists `confidence = NaN`;
both report success. -/
theorem c10_nan_persists :
    (postDetection stEmpty pNullTs 5).2 = .jsonSuccess "Detection logged"
    ∧ (postDetection stEmpty pNullTs 5).1.recs = [ingestedRecord stEmpty pNullTs 5]
    ∧ (ingestedRecord stEmpty pNullTs 5).timestampSec = JSNum.nan
    ∧ (postDetection stEmpty pStrConf 5).2 = .jsonSuccess "Detection logged"
    ∧ (postDetection stEmpty pStrConf 5).1.recs = [ingestedRecord stEmpty pStrConf 5]
    ∧ (ingestedRecord stEmpty pStrConf 5).confidence = JSNum.nan :=
  ⟨rfl, rfl, rfl, rfl, rfl, rfl⟩

/-- C5: `listByVideo` is sorted ascending on `timestampSec`, is a permutation
of (hence has the same members and multiplicities as) the records whose
`videoId` equals the queried id, contains a record iff it is stored with that
`videoId`, and `GET /video/:videoId` redirects to the dashboard with the
error indicator when it is empty. -/
theorem c5_listByVideo (st : StoreState) (v : String) (b : BucketState) :
    List.Sorted tssAsc (listByVideo st v)
    ∧ List.Perm (listByVideo st v)
        (st.recs.filter fun d => decide (d.videoId = JSValue.string v))
    ∧ (∀ d, d ∈ listByVideo st v ↔ d ∈ st.recs ∧ d.videoId = JSValue.string v)
    ∧ (listByVideo st v = [] →
        videoRoute st b v = (b, .redirect "/?error=Video not found")) := by
  refine ⟨List.sorted_insertionSort _ _, List.perm_insertionSort _ _, ?_, ?_⟩
  · intro d
    simp [listByVideo, List.mem_filter]
  · intro h
    simp [videoRoute, h]

/-- C5 witness: the empty store has no records for `"v9"`, and the route
redirects with the error indicator. -/
theorem c5_listByVideo_witness :
    videoRoute stEmpty bV1 "v9" = (bV1, .redirect "/?error=Video not found") :=
  (c5_listByVideo stEmpty "v9" bV1).2.2.2 rfl

/-- C7: media resolution targets exactly `videos/{videoId}.mp4`; when that
object exists it is made public and its public URL is produced, and when it
does not exist resolution yields the empty URL with the bucket untouched and
no error, the video page still rendering the detection list with no playable
source. -/
theorem c7_resolveMedia (b : BucketState) (v : String) (st : StoreState) :
    (("videos/" ++ v ++ ".mp4") ∈ b.objects →
      resolveMedia b v = (makePublic b ("videos/" ++ v ++ ".mp4"),
          "https://storage.googleapis.com/" ++ bucketName ++ "/"
            ++ ("videos/" ++ v ++ ".mp4"))
        ∧ ("videos/" ++ v ++ ".mp4") ∈ (resolveMedia b v).1.publicObjects)
    ∧ (("videos/" ++ v ++ ".mp4") ∉ b.objects → resolveMedia b v = (b, ""))
    ∧ (∀ d ds, ("videos/" ++ v ++ ".mp4") ∉ b.objects → listByVideo st v = d :: ds →
        videoRoute st b v = (b, .renderVideo v "" (d :: ds) d.cameraId)) := by
  refine ⟨?_, ?_, ?_⟩
  · intro hin
    refine ⟨by simp [resolveMedia, hin], ?_⟩
    simp only [resolveMedia, if_pos hin, makePublic]
    split
    · assumption
    · exact List.mem_cons_self _ _
  · intro hout
    simp [resolveMedia, hout]
  · intro d ds hout hlv
    simp [videoRoute, hlv, resolveMedia, hout]

/-- C7 witness: `videos/v1.mp4` exists in `bV1` and resolves to its public
URL after being made public; `videos/v9.mp4` does not exist, resolution
returns no URL and does not error, and the `v1` page renders with its
detections and an empty source when the object is missing from the empty
bucket. -/
theorem c7_resolveMedia_witness :
    (resolveMedia bV1 "v1" = (makePublic bV1 ("videos/" ++ "v1" ++ ".mp4"),
        "https://storage.googleapis.com/" ++ bucketName ++ "/"
          ++ ("videos/" ++ "v1" ++ ".mp4"))
      ∧ ("videos/" ++ "v1" ++ ".mp4") ∈ (resolveMedia bV1 "v1").1.publicObjects)
    ∧ resolveMedia bV1 "v9" = (bV1, "")
    ∧ videoRoute stV1 ⟨[], []⟩ "v1"
        = (⟨[], []⟩, .renderVideo "v1" "" [detV1b, detV1] detV1b.cameraId) :=
  ⟨(c7_resolveMedia bV1 "v1" stEmpty).1 (by decide),
   (c7_resolveMedia bV1 "v9" stEmpty).2.1 (by decide),
   (c7_resolveMedia ⟨[], []⟩ "v1" stV1).2.2 detV1b [detV1] (by decide) (by decide)⟩

/-- C8: `POST /delete/:id` with a well-formed id always answers
`{success: true}`; when no stored record carries the id nothing changes, and
when a record carries it, exactly that record is removed and all others are
kept in order. -/
theorem c8_deleteById (st : StoreState) (oid : Nat) :
    (deleteRoute st oid).2 = DeleteResponse.ok
    ∧ ((∀ r ∈ st.recs, r.id ≠ oid) → deleteRoute st oid = (st, DeleteResponse.ok))
    ∧ (∀ pre d post, st.recs = pre ++ d :: post → d.id = oid →
        (∀ x ∈ pre, x.id ≠ oid) → (deleteRoute st oid).1.recs = pre ++ post) := by
  refine ⟨rfl, ?_, ?_⟩
  · intro h
    have : eraseFirstById st.recs oid = st.recs := eraseFirstById_of_none _ _ h
    simp [deleteRoute, deleteById, this]
  · intro pre d post hsplit hd hpre
    simp [deleteRoute, deleteById, hsplit, eraseFirstById_split pre d post oid hd hpre]

/-- C8 witness: deleting the absent id 9 from `stV1` changes nothing and
reports success; deleting id 1 removes exactly `detV1b`. -/
theorem c8_deleteById_witness :
    deleteRoute stV1 9 = (stV1, DeleteResponse.ok)
    ∧ (deleteRoute stV1 1).1.recs = [detV1] ++ [] :=
  ⟨(c8_deleteById stV1 9).2.1 (by decide),
   (c8_deleteById stV1 1).2.2 [detV1] detV1b [] (by decide) (by decide) (by decide)⟩

/-- C1 (refuted as stated; the code is at fault): the search route passes the
raw input to the regex engine instead of matching it literally. On the store
holding one record with item `"axb"`, the input `"a.*b"` *matches* under the
source's regex semantics — the literal-substring search required by the
specification returns nothing — and the input `"("` raises a `SyntaxError`
inside the handler instead of being matched as literal text. -/
theorem c1_search_regex_passthrough :
    search stAxb "a.*b" = .ok [detAxb]
    ∧ searchLiteral stAxb "a.*b" = []
    ∧ search stAxb "(" = .error "Unterminated group" :=
  ⟨rfl, rfl, rfl⟩

/-- C3 (refuted as stated; the code is at fault): in `src/index.js`, when the
store query of `GET /search` throws, the `catch` block itself throws a
`ReferenceError` (it reads `item`, scoped to the `try` block), so the failure
is not converted into a response at the handler boundary. -/
theorem c3_search_catch_throws :
    searchRoute stAxb (some "cup") (some "socket closed")
      = .error (.referenceError "item") := rfl

theorem mem_firstDedupAux (l : List String) (x : String) : ∀ seen,
    x ∈ firstDedupAux seen l ↔ x ∈ l ∧ x ∉ seen := by
  induction l with
  | nil => intro seen; simp [firstDedupAux]
  | cons y ys ih =>
      intro seen
      by_cases hy : y ∈ seen
      · rw [firstDedupAux, if_pos hy, ih seen]
        constructor
        · rintro ⟨h1, h2⟩
          exact ⟨List.mem_cons_of_mem _ h1, h2⟩
        · rintro ⟨h1, h2⟩
          rcases List.mem_cons.mp h1 with rfl | h1
          · exact absurd hy h2
          · exact ⟨h1, h2⟩
      · rw [firstDedupAux, if_neg hy]
        simp only [List.mem_cons, ih (y :: seen)]
        constructor
        · rintro (rfl | ⟨h1, h2⟩)
          · exact ⟨Or.inl rfl, hy⟩
          · exact ⟨Or.inr h1, fun hx => h2 (Or.inr hx)⟩
        · rintro ⟨rfl | h1, h2⟩
          · exact Or.inl rfl
          · by_cases he : x = y
            · exact Or.inl he
            · exact Or.inr ⟨h1, fun hc => hc.elim he h2⟩

theorem firstDedupAux_append (l : List String) (x : String) : ∀ seen,
    firstDedupAux seen (l ++ [x])
      = firstDedupAux seen l ++ (if x ∈ seen ∨ x ∈ l then [] else [x]) := by
  induction l with
  | nil => intro seen; simp [firstDedupAux]
  | cons y ys ih =>
      intro seen
      simp only [List.cons_append, firstDedupAux, List.append_eq]
      by_cases hy : y ∈ seen
      · rw [if_pos hy, if_pos hy, ih seen]
        congr 1
        apply if_congr _ rfl rfl
        constructor
        · rintro (h | h)
          · exact Or.inl h
          · exact Or.inr (List.mem_cons_of_mem _ h)
        · rintro (h | h)
          · exact Or.inl h
          · rcases List.mem_cons.mp h with rfl | h
            · exact Or.inl hy
            · exact Or.inr h
      · rw [if_neg hy, if_neg hy, ih (y :: seen)]
        simp only [List.cons_append]
        congr 2
        apply if_congr _ rfl rfl
        simp only [List.mem_cons]
        tauto

theorem firstDedup_append_mem {l : List String} {x : String} (h : x ∈ l) :
    firstDedup (l ++ [x]) = firstDedup l := by
  unfold firstDedup
  rw [firstDedupAux_append]
  simp [h]

theorem firstDedup_append_not_mem {l : List String} {x : String} (h : x ∉ l) :
    firstDedup (l ++ [x]) = firstDedup l ++ [x] := by
  unfold firstDedup
  rw [firstDedupAux_append]
  simp [h]

theorem mem_firstDedup {l : List String} {x : String} : x ∈ firstDedup l ↔ x ∈ l := by
  unfold firstDedup
  rw [mem_firstDedupAux]
  simp

theorem lookupKey_map_of_mem (ks : List String) (f : String → VideoEntity) (k : String)
    (h : k ∈ ks) : lookupKey (ks.map fun k2 => (k2, f k2)) k = some (f k) := by
  induction ks with
  | nil => cases h
  | cons a as ih =>
      simp only [List.map_cons, lookupKey]
      by_cases hk : a = k
      · subst hk; rw [if_pos rfl]
      · rw [if_neg hk]
        refine ih ?_
        rcases List.mem_cons.mp h with rfl | h
        · exact absurd rfl hk
        · exact h

theorem lookupKey_map_of_not_mem (ks : List String) (f : String → VideoEntity) (k : String)
    (h : k ∉ ks) : lookupKey (ks.map fun k2 => (k2, f k2)) k = none := by
  induction ks with
  | nil => rfl
  | cons a as ih =>
      simp only [List.map_cons, lookupKey]
      rw [if_neg fun he => h (by rw [← he]; exact List.mem_cons_self a as)]
      exact ih fun hc => h (List.mem_cons_of_mem _ hc)

theorem entityFor_append_of_ne (k : String) (dets : List Detection) (d : Detection)
    (h : keyOf d ≠ k) : entityFor k (dets ++ [d]) = entityFor k dets := by
  unfold entityFor
  rw [List.filter_append]
  simp [List.filter, h]

theorem entityFor_append_of_not_mem (dets : List Detection) (d : Detection)
    (h : keyOf d ∉ dets.map keyOf) :
    entityFor (keyOf d) (dets ++ [d]) = mkEntity d := by
  have hfil : dets.filter (fun x => decide (keyOf x = keyOf d)) = [] := by
    refine List.filter_eq_nil_iff.mpr fun a ha => ?_
    simp only [decide_eq_true_eq]
    exact fun he => h (by rw [← he]; exact List.mem_map_of_mem keyOf ha)
  unfold entityFor
  rw [List.filter_append, hfil]
  simp [List.filter, mkEntity]

theorem entityFor_append_of_mem (dets : List Detection) (d : Detection)
    (h : keyOf d ∈ dets.map keyOf) :
    entityFor (keyOf d) (dets ++ [d]) = pushDet (entityFor (keyOf d) dets) d := by
  have hfil : dets.filter (fun x => decide (keyOf x = keyOf d)) ≠ [] := by
    rcases List.mem_map.mp h with ⟨a, ha, hk⟩
    intro hnil
    have := List.filter_eq_nil_iff.mp hnil a ha
    simp [hk] at this
  unfold entityFor
  rw [List.filter_append]
  rcases hne : dets.filter (fun x => decide (keyOf x = keyOf d)) with _ | ⟨d0, ds⟩
  · exact absurd hne hfil
  · simp [List.filter, pushDet]

theorem insertDet_of_found (m : List (String × VideoEntity)) (d : Detection)
    (e : VideoEntity) (h : lookupKey m (keyOf d) = some e) :
    insertDet m d = m.map fun kv => if kv.1 = keyOf d then (kv.1, pushDet kv.2 d) else kv := by
  unfold insertDet
  rw [h]

theorem insertDet_of_missing (m : List (String × VideoEntity)) (d : Detection)
    (h : lookupKey m (keyOf d) = none) :
    insertDet m d = m ++ [(keyOf d, mkEntity d)] := by
  unfold insertDet
  rw [h]

theorem groupByVideo_eq_groupPairsSpec (dets : List Detection) :
    groupByVideo dets = groupPairsSpec dets := by
  induction dets using List.reverseRecOn with
  | nil => rfl
  | append_singleton l d ih =>
      have hstep : groupByVideo (l ++ [d]) = insertDet (groupByVideo l) d := by
        unfold groupByVideo
        rw [List.foldl_append]
        rfl
      rw [hstep, ih]
      by_cases hmem : keyOf d ∈ l.map keyOf
      · have hlk : lookupKey (groupPairsSpec l) (keyOf d) = some (entityFor (keyOf d) l) := by
          unfold groupPairsSpec
          exact lookupKey_map_of_mem _ _ _ (mem_firstDedup.mpr hmem)
        rw [insertDet_of_found _ _ _ hlk]
        unfold groupPairsSpec
        rw [List.map_map]
        have hmap : (l ++ [d]).map keyOf = l.map keyOf ++ [keyOf d] := by simp
        rw [hmap, firstDedup_append_mem hmem]
        refine List.map_congr_left fun k hk => ?_
        have hk2 : k ∈ l.map keyOf := mem_firstDedup.mp hk
        by_cases he : k = keyOf d
        · subst he
          simp only [Function.comp_apply]
          rw [if_pos trivial, entityFor_append_of_mem l d hmem]
        · simp only [Function.comp_apply]
          rw [if_neg he, entityFor_append_of_ne k l d fun hc => he hc.symm]
      · have hlk : lookupKey (groupPairsSpec l) (keyOf d) = none := by
          unfold groupPairsSpec
          exact lookupKey_map_of_not_mem _ _ _ fun hc => hmem (mem_firstDedup.mp hc)
        rw [insertDet_of_missing _ _ hlk]
        unfold groupPairsSpec
        have hmap : (l ++ [d]).map keyOf = l.map keyOf ++ [keyOf d] := by simp
        rw [hmap, firstDedup_append_not_mem hmem, List.map_append]
        congr 1
        · refine List.map_congr_left fun k hk => ?_
          have he : keyOf d ≠ k := fun hc => hmem (hc ▸ mem_firstDedup.mp hk)
          rw [entityFor_append_of_ne k l d he]
        · simp only [List.map_cons, List.map_nil]
          rw [entityFor_append_of_not_mem l d hmem]

theorem groupByVideo_map_snd (dets : List Detection) :
    (groupByVideo dets).map Prod.snd = groupSpec dets := by
  rw [groupByVideo_eq_groupPairsSpec]
  unfold groupPairsSpec groupSpec
  rw [List.map_map]
  rfl

theorem groupByVideo_keys (dets : List Detection) :
    (groupByVideo dets).map Prod.fst = firstDedup (dets.map keyOf) := by
  rw [groupByVideo_eq_groupPairsSpec]
  unfold groupPairsSpec
  rw [List.map_map]
  exact List.map_id _

theorem objectValues_of_no_index (m : List (String × VideoEntity))
    (h : ∀ kv ∈ m, isArrayIndexKey kv.1 = false) : objectValues m = m.map Prod.snd := by
  unfold objectValues
  have h1 : m.filter (fun kv => isArrayIndexKey kv.1) = [] :=
    List.filter_eq_nil_iff.mpr fun kv hkv => by simp [h kv hkv]
  have h2 : m.filter (fun kv => !isArrayIndexKey kv.1) = m :=
    List.filter_eq_self.mpr fun kv hkv => by simp [h kv hkv]
  rw [h1, h2]
  rfl

/-- C6 counterexample: on a store whose video ids are the numeric strings
`"10"` (most recent) and `"2"` (older), the dashboard lists video `"2"` first
— `Object.values` orders array-index keys numerically — while the order of
first appearance in the recency-sorted list is `"10"` then `"2"`. -/
theorem c6_dashboard_grouping_counterexample :
    (dashboardVideos stNumVids).map (fun e => jsToStr e.videoId) = ["2", "10"]
    ∧ (groupSpec (listAll stNumVids)).map (fun e => jsToStr e.videoId) = ["10", "2"]
    ∧ dashboardVideos stNumVids ≠ groupSpec (listAll stNumVids) := by
  refine ⟨rfl, rfl, fun heq => ?_⟩
  have h1 : (dashboardVideos stNumVids).map (fun e => jsToStr e.videoId) = ["2", "10"] := rfl
  have h2 : (groupSpec (listAll stNumVids)).map (fun e => jsToStr e.videoId) = ["10", "2"] := rfl
  rw [heq, h2] at h1
  exact absurd h1 (by simp)

/-- C6 (amended): `listAll` returns every record, most recent first, and the
dashboard groups it into one entity per videoId with `cameraId` taken from the
first associated detection and detections in the recency-sorted order; the
entity order is the order of first appearance in the recency-sorted list
*provided no videoId renders as a canonical array-index string* (integer-like
keys are otherwise listed first, in ascending numeric order, per JavaScript
object property order). -/
theorem c6_dashboard_grouping (st : StoreState)
    (h : ∀ d ∈ st.recs, isArrayIndexKey (keyOf d) = false) :
    List.Perm (listAll st) st.recs
    ∧ List.Sorted tsDesc (listAll st)
    ∧ dashboardVideos st = groupSpec (listAll st) := by
  refine ⟨List.perm_insertionSort _ _, List.sorted_insertionSort _ _, ?_⟩
  unfold dashboardVideos
  have hpf : ∀ kv ∈ groupByVideo (listAll st), isArrayIndexKey kv.1 = false := by
    intro kv hkv
    have hk : kv.1 ∈ (groupByVideo (listAll st)).map Prod.fst :=
      List.mem_map_of_mem _ hkv
    rw [groupByVideo_keys] at hk
    rcases List.mem_map.mp (mem_firstDedup.mp hk) with ⟨d, hd, hkd⟩
    rw [← hkd]
    exact h d ((List.perm_insertionSort _ _).subset hd)
  rw [objectValues_of_no_index _ hpf, groupByVideo_map_snd]

/-- C6 witness: on a store of two detections of the single, non-numeric
video id `"v1"`, the dashboard shows exactly the first-appearance grouping of
the recency-sorted listing. -/
theorem c6_dashboard_grouping_witness :
    List.Perm (listAll stV1) stV1.recs
    ∧ List.Sorted tsDesc (listAll stV1)
    ∧ dashboardVideos stV1 = groupSpec (listAll stV1) :=
  c6_dashboard_grouping stV1 (by
    intro d hd
    have : d = detV1 ∨ d = detV1b := by simpa [stV1] using hd
    rcases this with rfl | rfl <;> rfl)

theorem orderedInsert_map_string (a : String) (ls : List String) :
    List.orderedInsert jsSortLe (JSValue.string a) (ls.map JSValue.string)
      = (List.orderedInsert (· ≤ ·) a ls).map JSValue.string := by
  induction ls with
  | nil => rfl
  | cons b bs ih =>
      simp only [List.map_cons, List.orderedInsert]
      by_cases h : a ≤ b
      · rw [if_pos (show jsSortLe (JSValue.string a) (JSValue.string b) from h), if_pos h]
        rfl
      · rw [if_neg (show ¬jsSortLe (JSValue.string a) (JSValue.string b) from h), if_neg h]
        rw [List.map_cons, ih]

theorem insertionSort_map_string (ls : List String) :
    List.insertionSort jsSortLe (ls.map JSValue.string)
      = (List.insertionSort (· ≤ ·) ls).map JSValue.string := by
  induction ls with
  | nil => rfl
  | cons a as ih =>
      simp only [List.map_cons, List.insertionSort]
      rw [ih, orderedInsert_map_string]

theorem dedup_map_string (ls : List String) :
    (ls.map JSValue.string).dedup = ls.dedup.map JSValue.string := by
  induction ls with
  | nil => rfl
  | cons a as ih =>
      by_cases h : a ∈ as
      · rw [List.map_cons, List.dedup_cons_of_mem (List.mem_map_of_mem _ h),
          List.dedup_cons_of_mem h, ih]
      · rw [List.map_cons, List.dedup_cons_of_not_mem ?_, List.dedup_cons_of_not_mem h,
          List.map_cons, ih]
        intro hc
        rcases List.mem_map.mp hc with ⟨b, hb, he⟩
        cases he
        exact h hb

theorem sortedDedup_string_congr (l1 l2 : List String) (h : ∀ s, s ∈ l1 ↔ s ∈ l2) :
    List.insertionSort (· ≤ ·) l1.dedup = List.insertionSort (· ≤ ·) l2.dedup := by
  have hperm : List.Perm l1.dedup l2.dedup :=
    (List.perm_ext_iff_of_nodup (List.nodup_dedup _) (List.nodup_dedup _)).mpr
      (by intro a; rw [List.mem_dedup, List.mem_dedup]; exact h a)
  exact List.eq_of_perm_of_sorted
    (((List.perm_insertionSort _ _).trans hperm).trans (List.perm_insertionSort _ _).symm)
    (List.sorted_insertionSort _ _) (List.sorted_insertionSort _ _)

theorem distinctItems_string (st : StoreState) (labels : List String)
    (h : st.recs.map (·.item) = labels.map JSValue.string) :
    distinctItems st = (List.insertionSort (· ≤ ·) labels.dedup).map JSValue.string := by
  unfold distinctItems distinctValues
  rw [h, dedup_map_string, insertionSort_map_string]

/-- C9: `GET /api/items` returns a sorted (ascending, by the default
string comparator), duplicate-free list containing exactly the stored item
labels; for stores of string labels the result depends only on the *set* of
labels, hence is invariant under permutation of insertion order and under
duplicate detections of the same item. -/
theorem c9_distinctItems (st1 st2 : StoreState) (labels1 labels2 : List String)
    (h1 : st1.recs.map (·.item) = labels1.map JSValue.string)
    (h2 : st2.recs.map (·.item) = labels2.map JSValue.string)
    (hmem : ∀ s, s ∈ labels1 ↔ s ∈ labels2) :
    List.Sorted jsSortLe (distinctItems st1)
    ∧ (distinctItems st1).Nodup
    ∧ (∀ x, x ∈ distinctItems st1 ↔ x ∈ st1.recs.map (·.item))
    ∧ distinctItems st2 = distinctItems st1 := by
  refine ⟨List.sorted_insertionSort _ _, ?_, ?_, ?_⟩
  · exact (List.perm_insertionSort _ _).symm.nodup (List.nodup_dedup _)
  · intro x
    unfold distinctItems distinctValues
    rw [List.mem_insertionSort, List.mem_dedup]
  · rw [distinctItems_string st1 labels1 h1, distinctItems_string st2 labels2 h2,
      sortedDedup_string_congr labels2 labels1 fun s => (hmem s).symm]

/-- C9 witness: the stores holding items `["cup", "mug"]` and
`["mug", "cup", "cup"]` — a permutation with a duplicate — produce the same
sorted, duplicate-free item list. -/
theorem c9_distinctItems_witness :
    List.Sorted jsSortLe (distinctItems stV1)
    ∧ (distinctItems stV1).Nodup
    ∧ (∀ x, x ∈ distinctItems stV1 ↔ x ∈ stV1.recs.map (·.item))
    ∧ distinctItems stItems2 = distinctItems stV1 :=
  c9_distinctItems stV1 stItems2 ["cup", "mug"] ["mug", "cup", "cup"] rfl rfl (by
    intro s
    constructor
    · intro hs
      rcases List.mem_cons.mp hs with rfl | hs
      · simp
      · rcases List.mem_cons.mp hs with rfl | hs
        · simp
        · cases hs
    · intro hs
      rcases List.mem_cons.mp hs with rfl | hs
      · simp
      · rcases List.mem_cons.mp hs with rfl | hs
        · simp
        · rcases List.mem_cons.mp hs with rfl | hs
          · simp
          · cases hs)

end SmartCam
